import Mathlib

/-!
Shallow embedding of `pyannote/metrics/matcher.py`.

The module defines `LabelMatcher`, whose `match` method is plain value
equality, `UnknownSupportMixin`, whose `match` treats two `Unknown`
instances as matching, and `LabelMatcher.__call__`, which

  1. builds an `N x N` boolean match matrix (`N = max(NR, NH)`,
     entries outside the two real label sequences stay `False`),
  2. asks a Munkres (Hungarian) solver for a minimum-cost assignment of
     rows to columns for the cost matrix `1 - match`,
  3. classifies each assigned pair `(r, h)` as false alarm
     (`r >= NR`), missed detection (`h >= NH`), correct
     (`match[r, h]`) or confusion, accumulating counts and details,
  4. finally sets `counts[total] = NR`.

The Munkres solver is an external collaborator; it is modelled as a
parameter `solve` producing a permutation of `Fin N` (the solver returns
one pair per row, in row order, so the mapping is the graph of a
permutation).  Optimality of the returned assignment, which the Munkres
algorithm guarantees, is the predicate `IsOptimalAssignment`, taken as a
hypothesis by the theorems that depend on it.
-/

/-- Counters accumulated by `LabelMatcher.__call__`: the `counts` dict with
keys correct, confusion, missed detection, false alarm, total. -/
structure Counts where
  correct : Nat
  confusion : Nat
  missed : Nat
  falseAlarm : Nat
  total : Nat
  deriving DecidableEq, Repr

/-- The `details` dict of `LabelMatcher.__call__`: per-outcome lists of the
realized labels, `(reference, hypothesis)` pairs for correct and confusion,
a reference label for missed detection, a hypothesis label for false alarm. -/
structure Details (α : Type) where
  correct : List (α × α)
  confusion : List (α × α)
  missed : List α
  falseAlarm : List α
  deriving DecidableEq, Repr

/-- The zero-initialized `counts` dict. -/
def Counts.init : Counts := ⟨0, 0, 0, 0, 0⟩

/-- The empty-initialized `details` dict. -/
def Details.init (α : Type) : Details α := ⟨[], [], [], []⟩

/-- `LabelMatcher.match`: two IDs match iff they are equal to each other
(Python `rlabel == hlabel`, value equality). -/
def LabelMatcher.matchLabel {α : Type} [DecidableEq α] (rlabel hlabel : α) : Bool :=
  decide (rlabel = hlabel)

/-- A Python label as seen by the matcher: either an `Unknown` placeholder
instance (carrying the per-instance data that distinguishes one placeholder
object from another) or an ordinary concrete label. -/
inductive PyLabel where
  | unknown (uid : Nat) : PyLabel
  | named (s : String) : PyLabel
  deriving DecidableEq, Repr

/-- `isinstance(label, Unknown)`. -/
def PyLabel.isUnknown : PyLabel → Bool
  | .unknown _ => true
  | .named _ => false

/-- `UnknownSupportMixin.match`: return `True` if both labels are `Unknown`
instances; otherwise fall back to value equality. -/
def UnknownSupportMixin.matchLabel (rlabel hlabel : PyLabel) : Bool :=
  if rlabel.isUnknown && hlabel.isUnknown then true
  else decide (rlabel = hlabel)

/-- The `N x N` match matrix built by `LabelMatcher.__call__`: initialized to
`False` by `np.zeros`, then `match[r, h] = self.match(rlabels[r], hlabels[h])`
for every `r < NR`, `h < NH`.  Entries outside those bounds keep `False`. -/
def matchMatrix {α : Type} (m : α → α → Bool) (rlabels hlabels : List α)
    (r h : Nat) : Bool :=
  if hr : r < rlabels.length then
    if hh : h < hlabels.length then
      m (rlabels.get ⟨r, hr⟩) (hlabels.get ⟨h, hh⟩)
    else false
  else false

/-- One iteration of the classification loop of `LabelMatcher.__call__`: given
the accumulated `(counts, details)` and an assignment pair `(r, h)`, apply the
`if r >= NR / elif h >= NH / elif match[r, h] / else` chain. -/
def matchStep {α : Type} [Inhabited α] (rlabels hlabels : List α)
    (M : Nat → Nat → Bool) (acc : Counts × Details α) (p : Nat × Nat) :
    Counts × Details α :=
  let r := p.1
  let h := p.2
  if rlabels.length ≤ r then
    ({ acc.1 with falseAlarm := acc.1.falseAlarm + 1 },
     { acc.2 with falseAlarm := acc.2.falseAlarm ++ [hlabels.getD h default] })
  else if hlabels.length ≤ h then
    ({ acc.1 with missed := acc.1.missed + 1 },
     { acc.2 with missed := acc.2.missed ++ [rlabels.getD r default] })
  else if M r h then
    ({ acc.1 with correct := acc.1.correct + 1 },
     { acc.2 with correct :=
        acc.2.correct ++ [(rlabels.getD r default, hlabels.getD h default)] })
  else
    ({ acc.1 with confusion := acc.1.confusion + 1 },
     { acc.2 with confusion :=
        acc.2.confusion ++ [(rlabels.getD r default, hlabels.getD h default)] })

/-- The type of the assignment solver collaborator (`munkres.Munkres`): for a
square size `n` and a match matrix it returns a one-to-one mapping of rows to
columns.  The solver reports its result as one pair per row in row order, so
the mapping is represented by a permutation of `Fin n`. -/
def Solver : Type :=
  (n : Nat) → (Nat → Nat → Bool) → Equiv.Perm (Fin n)

/-- `LabelMatcher.__call__`: zero-initialize counts and details, return them
unchanged when `N = max(NR, NH) = 0`, otherwise build the match matrix, get
the optimal assignment from the solver, classify every assigned pair, and
finally add `NR` to the total count. -/
def labelMatcherCall {α : Type} [Inhabited α] (m : α → α → Bool) (solve : Solver)
    (rlabels hlabels : List α) : Counts × Details α :=
  let NR := rlabels.length
  let NH := hlabels.length
  let N := max NR NH
  if N = 0 then (Counts.init, Details.init α)
  else
    let M := matchMatrix m rlabels hlabels
    let σ := solve N M
    let mapping := (List.finRange N).map fun r => (r.val, (σ r).val)
    let res := mapping.foldl (matchStep rlabels hlabels M) (Counts.init, Details.init α)
    ({ res.1 with total := res.1.total + NR }, res.2)

/-- Number of matched pairs produced by pairing row `r` with column `f r`,
for a row-to-column pairing `f` of the `n` padded indices. -/
def permMatchCount (n : Nat) (M : Nat → Nat → Bool) (f : Fin n → Fin n) : Nat :=
  ((List.finRange n).filter fun r => M r.val (f r).val).length

/-- The assignment `σ` is optimal: no one-to-one pairing of the `n` padded
row indices to the `n` padded column indices matches more pairs.  This is the
guarantee provided by the Munkres solver on the cost matrix `1 - match`. -/
def IsOptimalAssignment (n : Nat) (M : Nat → Nat → Bool) (σ : Equiv.Perm (Fin n)) : Prop :=
  ∀ f : Fin n → Fin n, Function.Bijective f → permMatchCount n M f ≤ permMatchCount n M σ

/-- A degenerate solver that always returns the identity assignment; used to
instantiate the solver parameter on concrete inputs where the identity
assignment happens to be optimal. -/
def trivialSolver : Solver := fun n _ => Equiv.refl (Fin n)

/-- Condition under which a pair `(r, h)` is classified as a false alarm:
`r >= NR` (the first branch of the classification chain). -/
def faCond {α : Type} (rlabels : List α) (p : Nat × Nat) : Bool :=
  decide (rlabels.length ≤ p.1)

/-- Condition under which a pair `(r, h)` is classified as a missed
detection: `r < NR` and `h >= NH` (the second branch). -/
def mdCond {α : Type} (rlabels hlabels : List α) (p : Nat × Nat) : Bool :=
  decide (p.1 < rlabels.length) && decide (hlabels.length ≤ p.2)

/-- Condition under which a pair `(r, h)` is classified as correct:
`r < NR`, `h < NH` and the match matrix holds at `(r, h)` (third branch). -/
def corCond {α : Type} (rlabels hlabels : List α) (M : Nat → Nat → Bool)
    (p : Nat × Nat) : Bool :=
  decide (p.1 < rlabels.length) && decide (p.2 < hlabels.length) && M p.1 p.2

/-- Condition under which a pair `(r, h)` is classified as a confusion:
`r < NR`, `h < NH` and the match matrix is false at `(r, h)` (last branch). -/
def confCond {α : Type} (rlabels hlabels : List α) (M : Nat → Nat → Bool)
    (p : Nat × Nat) : Bool :=
  decide (p.1 < rlabels.length) && decide (p.2 < hlabels.length) && !(M p.1 p.2)

/-- Detail recorded for a correct or confusion pair:
`(rlabels[r], hlabels[h])`. -/
def corPayload {α : Type} [Inhabited α] (rlabels hlabels : List α)
    (p : Nat × Nat) : α × α :=
  (rlabels.getD p.1 default, hlabels.getD p.2 default)

/-- Detail recorded for a missed detection: `rlabels[r]`. -/
def mdPayload {α : Type} [Inhabited α] (rlabels : List α) (p : Nat × Nat) : α :=
  rlabels.getD p.1 default

/-- Detail recorded for a false alarm: `hlabels[h]`. -/
def faPayload {α : Type} [Inhabited α] (hlabels : List α) (p : Nat × Nat) : α :=
  hlabels.getD p.2 default

/-- The list of assignment pairs `(r, σ r)` over which the classification
loop of `LabelMatcher.__call__` iterates. -/
def assignmentPairs {α : Type} (m : α → α → Bool) (solve : Solver)
    (rlabels hlabels : List α) : List (Nat × Nat) :=
  let N := max rlabels.length hlabels.length
  let σ := solve N (matchMatrix m rlabels hlabels)
  (List.finRange N).map fun r => (r.val, (σ r).val)

lemma foldl_matchStep {α : Type} [Inhabited α] (rl hl : List α)
    (M : Nat → Nat → Bool) (ps : List (Nat × Nat)) (c : Counts) (d : Details α) :
    ps.foldl (matchStep rl hl M) (c, d) =
      (⟨c.correct + (ps.filter (corCond rl hl M)).length,
        c.confusion + (ps.filter (confCond rl hl M)).length,
        c.missed + (ps.filter (mdCond rl hl)).length,
        c.falseAlarm + (ps.filter (faCond rl)).length,
        c.total⟩,
       ⟨d.correct ++ (ps.filter (corCond rl hl M)).map (corPayload rl hl),
        d.confusion ++ (ps.filter (confCond rl hl M)).map (corPayload rl hl),
        d.missed ++ (ps.filter (mdCond rl hl)).map (mdPayload rl),
        d.falseAlarm ++ (ps.filter (faCond rl)).map (faPayload hl)⟩) := by
  induction ps generalizing c d with
  | nil => simp
  | cons p ps ih =>
    rw [List.foldl_cons]
    by_cases h1 : rl.length ≤ p.1
    · have h1' : ¬ p.1 < rl.length := Nat.not_lt.mpr h1
      have hstep : matchStep rl hl M (c, d) p =
          ({ c with falseAlarm := c.falseAlarm + 1 },
           { d with falseAlarm := d.falseAlarm ++ [hl.getD p.2 default] }) := by
        simp [matchStep, h1]
      rw [hstep, ih]
      simp [List.filter_cons, faCond, mdCond, corCond, confCond, h1, h1',
        faPayload, List.append_assoc]
      omega
    · have h1' : p.1 < rl.length := Nat.not_le.mp h1
      by_cases h2 : hl.length ≤ p.2
      · have h2' : ¬ p.2 < hl.length := Nat.not_lt.mpr h2
        have hstep : matchStep rl hl M (c, d) p =
            ({ c with missed := c.missed + 1 },
             { d with missed := d.missed ++ [rl.getD p.1 default] }) := by
          simp [matchStep, h1, h2]
        rw [hstep, ih]
        simp [List.filter_cons, faCond, mdCond, corCond, confCond, h1, h1', h2, h2',
          mdPayload, List.append_assoc]
        omega
      · have h2' : p.2 < hl.length := Nat.not_le.mp h2
        by_cases h3 : M p.1 p.2
        · have hstep : matchStep rl hl M (c, d) p =
              ({ c with correct := c.correct + 1 },
               { d with correct :=
                  d.correct ++ [(rl.getD p.1 default, hl.getD p.2 default)] }) := by
            simp [matchStep, h1, h2, h3]
          rw [hstep, ih]
          simp [List.filter_cons, faCond, mdCond, corCond, confCond, h1, h1', h2, h2',
            h3, corPayload, List.append_assoc]
          omega
        · have hstep : matchStep rl hl M (c, d) p =
              ({ c with confusion := c.confusion + 1 },
               { d with confusion :=
                  d.confusion ++ [(rl.getD p.1 default, hl.getD p.2 default)] }) := by
            simp [matchStep, h1, h2, h3]
          rw [hstep, ih]
          simp [List.filter_cons, faCond, mdCond, corCond, confCond, h1, h1', h2, h2',
            h3, corPayload, List.append_assoc]
          omega

lemma labelMatcherCall_eq {α : Type} [Inhabited α] (m : α → α → Bool)
    (solve : Solver) (rl hl : List α) :
    labelMatcherCall m solve rl hl =
      (⟨((assignmentPairs m solve rl hl).filter (corCond rl hl (matchMatrix m rl hl))).length,
        ((assignmentPairs m solve rl hl).filter (confCond rl hl (matchMatrix m rl hl))).length,
        ((assignmentPairs m solve rl hl).filter (mdCond rl hl)).length,
        ((assignmentPairs m solve rl hl).filter (faCond rl)).length,
        rl.length⟩,
       ⟨((assignmentPairs m solve rl hl).filter (corCond rl hl (matchMatrix m rl hl))).map (corPayload rl hl),
        ((assignmentPairs m solve rl hl).filter (confCond rl hl (matchMatrix m rl hl))).map (corPayload rl hl),
        ((assignmentPairs m solve rl hl).filter (mdCond rl hl)).map (mdPayload rl),
        ((assignmentPairs m solve rl hl).filter (faCond rl)).map (faPayload hl)⟩) := by
  unfold labelMatcherCall assignmentPairs
  by_cases hN : max rl.length hl.length = 0
  · have hr : rl.length = 0 := (Nat.max_eq_zero_iff.mp hN).1
    have hps : List.finRange (max rl.length hl.length) = [] := by
      rw [hN]; exact List.finRange_zero
    simp [hps, hr, Counts.init, Details.init]
  · simp only [if_neg hN]
    rw [foldl_matchStep]
    simp [Counts.init, Details.init]

lemma countP_range_le (n k : Nat) :
    (List.range n).countP (fun x => decide (k ≤ x)) = n - k := by
  induction n with
  | zero => simp
  | succ n ih =>
    rw [List.range_succ, List.countP_append, ih]
    by_cases h : k ≤ n
    · simp [List.countP_cons, h]
      omega
    · simp [List.countP_cons, h]
      omega

lemma countP_finRange_le (n k : Nat) :
    (List.finRange n).countP (fun r => decide (k ≤ r.val)) = n - k := by
  have h := List.countP_map (fun x => decide (k ≤ x)) Fin.val (List.finRange n)
  rw [List.map_coe_finRange] at h
  have h2 : (List.finRange n).countP ((fun x => decide (k ≤ x)) ∘ Fin.val)
      = (List.finRange n).countP (fun r => decide (k ≤ r.val)) := rfl
  rw [h2] at h
  rw [← h, countP_range_le]

lemma countP_comp_perm (n : Nat) (σ : Equiv.Perm (Fin n)) (q : Fin n → Bool) :
    (List.finRange n).countP (fun r => q (σ r)) = (List.finRange n).countP q := by
  have h := List.countP_map q (⇑σ) (List.finRange n)
  have hperm := (Equiv.Perm.map_finRange_perm σ).countP_eq q
  rw [h] at hperm
  exact hperm

lemma filter_assignmentPairs {α : Type} (m : α → α → Bool) (solve : Solver)
    (rl hl : List α) (cond : Nat × Nat → Bool) :
    ((assignmentPairs m solve rl hl).filter cond).length
      = (List.finRange (max rl.length hl.length)).countP
          (fun r => cond (r.val, ((solve (max rl.length hl.length) (matchMatrix m rl hl)) r).val)) := by
  unfold assignmentPairs
  rw [← List.countP_eq_length_filter]
  exact List.countP_map cond _ _

lemma assignmentPairs_length {α : Type} (m : α → α → Bool) (solve : Solver)
    (rl hl : List α) :
    (assignmentPairs m solve rl hl).length = max rl.length hl.length := by
  unfold assignmentPairs
  rw [List.length_map, List.length_finRange]

lemma four_filter_length {α : Type} (rl hl : List α) (M : Nat → Nat → Bool)
    (ps : List (Nat × Nat)) :
    (ps.filter (corCond rl hl M)).length + (ps.filter (confCond rl hl M)).length
      + (ps.filter (mdCond rl hl)).length + (ps.filter (faCond rl)).length
      = ps.length := by
  induction ps with
  | nil => simp
  | cons p ps ih =>
    by_cases h1 : rl.length ≤ p.1
    · have h1' : ¬ p.1 < rl.length := Nat.not_lt.mpr h1
      simp [List.filter_cons, faCond, mdCond, corCond, confCond, h1, h1']
      omega
    · have h1' : p.1 < rl.length := Nat.not_le.mp h1
      by_cases h2 : hl.length ≤ p.2
      · have h2' : ¬ p.2 < hl.length := Nat.not_lt.mpr h2
        simp [List.filter_cons, faCond, mdCond, corCond, confCond, h1, h1', h2, h2']
        omega
      · have h2' : p.2 < hl.length := Nat.not_le.mp h2
        by_cases h3 : M p.1 p.2
        · simp [List.filter_cons, faCond, mdCond, corCond, confCond, h1, h1', h2, h2', h3]
          omega
        · simp [List.filter_cons, faCond, mdCond, corCond, confCond, h1, h1', h2, h2', h3]
          omega

lemma corCond_eq_matrix {α : Type} (m : α → α → Bool) (rl hl : List α) (r h : Nat) :
    corCond rl hl (matchMatrix m rl hl) (r, h) = matchMatrix m rl hl r h := by
  by_cases h1 : r < rl.length
  · by_cases h2 : h < hl.length
    · simp [corCond, matchMatrix, h1, h2]
    · simp [corCond, matchMatrix, h1, h2]
  · simp [corCond, matchMatrix, h1]

lemma faCount_eq {α : Type} (m : α → α → Bool) (solve : Solver) (rl hl : List α) :
    ((assignmentPairs m solve rl hl).filter (faCond rl)).length
      = hl.length - rl.length := by
  rw [filter_assignmentPairs]
  have h : (fun r : Fin (max rl.length hl.length) =>
      faCond rl (r.val, ((solve (max rl.length hl.length) (matchMatrix m rl hl)) r).val))
      = fun r : Fin (max rl.length hl.length) => decide (rl.length ≤ r.val) := rfl
  rw [h, countP_finRange_le]
  omega

lemma mdCount_eq {α : Type} (m : α → α → Bool) (solve : Solver) (rl hl : List α) :
    ((assignmentPairs m solve rl hl).filter (mdCond rl hl)).length
      = rl.length - hl.length := by
  rw [filter_assignmentPairs]
  have hpt : (fun r : Fin (max rl.length hl.length) =>
      mdCond rl hl (r.val, ((solve (max rl.length hl.length) (matchMatrix m rl hl)) r).val))
      = fun r => decide (hl.length ≤ ((solve (max rl.length hl.length) (matchMatrix m rl hl)) r).val) := by
    funext r
    by_cases hc : hl.length ≤ ((solve (max rl.length hl.length) (matchMatrix m rl hl)) r).val
    · have hb := ((solve (max rl.length hl.length) (matchMatrix m rl hl)) r).isLt
      have hr := r.isLt
      have h1 : r.val < rl.length := by omega
      simp [mdCond, hc, h1]
    · simp [mdCond, hc]
  rw [hpt]
  rw [countP_comp_perm (max rl.length hl.length)
    (solve (max rl.length hl.length) (matchMatrix m rl hl))
    (fun x => decide (hl.length ≤ x.val))]
  rw [countP_finRange_le]
  omega

lemma corCount_eq {α : Type} (m : α → α → Bool) (solve : Solver) (rl hl : List α) :
    ((assignmentPairs m solve rl hl).filter (corCond rl hl (matchMatrix m rl hl))).length
      = permMatchCount (max rl.length hl.length) (matchMatrix m rl hl)
          ⇑(solve (max rl.length hl.length) (matchMatrix m rl hl)) := by
  rw [filter_assignmentPairs]
  unfold permMatchCount
  rw [← List.countP_eq_length_filter]
  congr 1
  funext r
  exact corCond_eq_matrix m rl hl r.val _

/-- C2: for every pair of label sequences of lengths `NR` and `NH` and every
solver, the counts returned by `LabelMatcher.__call__` satisfy
`correct + confusion + missed detection + false alarm = max(NR, NH)` and
`total = NR`. -/
theorem call_counts_conservation {α : Type} [Inhabited α] (m : α → α → Bool)
    (solve : Solver) (rlabels hlabels : List α) :
    (labelMatcherCall m solve rlabels hlabels).1.correct
        + (labelMatcherCall m solve rlabels hlabels).1.confusion
        + (labelMatcherCall m solve rlabels hlabels).1.missed
        + (labelMatcherCall m solve rlabels hlabels).1.falseAlarm
      = max rlabels.length hlabels.length
    ∧ (labelMatcherCall m solve rlabels hlabels).1.total = rlabels.length := by
  have h4 := four_filter_length rlabels hlabels (matchMatrix m rlabels hlabels)
    (assignmentPairs m solve rlabels hlabels)
  have hlen := assignmentPairs_length m solve rlabels hlabels
  simp only [labelMatcherCall_eq]
  exact ⟨by omega, trivial⟩

/-- C9: the counts returned by `LabelMatcher.__call__` satisfy
`missed detection = max(0, NR - NH)`, `false alarm = max(0, NH - NR)` and
`correct + confusion = min(NR, NH)`, independently of the labels and of the
assignment the solver picks. -/
theorem call_counts_md_fa {α : Type} [Inhabited α] (m : α → α → Bool)
    (solve : Solver) (rlabels hlabels : List α) :
    (labelMatcherCall m solve rlabels hlabels).1.missed
        = rlabels.length - hlabels.length
    ∧ (labelMatcherCall m solve rlabels hlabels).1.falseAlarm
        = hlabels.length - rlabels.length
    ∧ (labelMatcherCall m solve rlabels hlabels).1.correct
          + (labelMatcherCall m solve rlabels hlabels).1.confusion
        = min rlabels.length hlabels.length := by
  have h4 := four_filter_length rlabels hlabels (matchMatrix m rlabels hlabels)
    (assignmentPairs m solve rlabels hlabels)
  have hlen := assignmentPairs_length m solve rlabels hlabels
  have hmd := mdCount_eq m solve rlabels hlabels
  have hfa := faCount_eq m solve rlabels hlabels
  simp only [labelMatcherCall_eq]
  exact ⟨hmd, hfa, by omega⟩

/-- C10: for each of the four outcome kinds, the integer in the counts dict
returned by `LabelMatcher.__call__` equals the length of the corresponding
list in the details dict. -/
theorem call_counts_match_details {α : Type} [Inhabited α] (m : α → α → Bool)
    (solve : Solver) (rlabels hlabels : List α) :
    (labelMatcherCall m solve rlabels hlabels).1.correct
        = (labelMatcherCall m solve rlabels hlabels).2.correct.length
    ∧ (labelMatcherCall m solve rlabels hlabels).1.confusion
        = (labelMatcherCall m solve rlabels hlabels).2.confusion.length
    ∧ (labelMatcherCall m solve rlabels hlabels).1.missed
        = (labelMatcherCall m solve rlabels hlabels).2.missed.length
    ∧ (labelMatcherCall m solve rlabels hlabels).1.falseAlarm
        = (labelMatcherCall m solve rlabels hlabels).2.falseAlarm.length := by
  simp only [labelMatcherCall_eq]
  simp [List.length_map]

/-- C6: calling `LabelMatcher.__call__` on two empty sequences returns
all-zero counts (including `total = 0`) and empty detail lists, for every
solver (no assignment is attempted). -/
theorem call_empty_empty {α : Type} [Inhabited α] (m : α → α → Bool)
    (solve : Solver) :
    labelMatcherCall m solve ([] : List α) ([] : List α) =
      ({ correct := 0, confusion := 0, missed := 0, falseAlarm := 0, total := 0 },
       { correct := [], confusion := [], missed := [], falseAlarm := [] }) := rfl

/-- C3: `LabelMatcher.__call__` classifies each assigned pair `(r, h)` by the
precedence `r >= NR` (false alarm, detail `hlabels[h]`), then `h >= NH`
(missed detection, detail `rlabels[r]`), then the match matrix at `(r, h)`
(correct, detail `(rlabels[r], hlabels[h])`), otherwise confusion (same
detail); the four classifying conditions are mutually exclusive and
exhaustive, so every assignment pair falls into exactly one kind. -/
theorem call_classification {α : Type} [Inhabited α] (m : α → α → Bool)
    (solve : Solver) (rlabels hlabels : List α) :
    ((labelMatcherCall m solve rlabels hlabels).1.falseAlarm
        = ((assignmentPairs m solve rlabels hlabels).filter (faCond rlabels)).length
      ∧ (labelMatcherCall m solve rlabels hlabels).2.falseAlarm
        = ((assignmentPairs m solve rlabels hlabels).filter (faCond rlabels)).map
            (faPayload hlabels))
    ∧ ((labelMatcherCall m solve rlabels hlabels).1.missed
        = ((assignmentPairs m solve rlabels hlabels).filter (mdCond rlabels hlabels)).length
      ∧ (labelMatcherCall m solve rlabels hlabels).2.missed
        = ((assignmentPairs m solve rlabels hlabels).filter (mdCond rlabels hlabels)).map
            (mdPayload rlabels))
    ∧ ((labelMatcherCall m solve rlabels hlabels).1.correct
        = ((assignmentPairs m solve rlabels hlabels).filter
            (corCond rlabels hlabels (matchMatrix m rlabels hlabels))).length
      ∧ (labelMatcherCall m solve rlabels hlabels).2.correct
        = ((assignmentPairs m solve rlabels hlabels).filter
            (corCond rlabels hlabels (matchMatrix m rlabels hlabels))).map
            (corPayload rlabels hlabels))
    ∧ ((labelMatcherCall m solve rlabels hlabels).1.confusion
        = ((assignmentPairs m solve rlabels hlabels).filter
            (confCond rlabels hlabels (matchMatrix m rlabels hlabels))).length
      ∧ (labelMatcherCall m solve rlabels hlabels).2.confusion
        = ((assignmentPairs m solve rlabels hlabels).filter
            (confCond rlabels hlabels (matchMatrix m rlabels hlabels))).map
            (corPayload rlabels hlabels))
    ∧ (∀ p : Nat × Nat,
        (faCond rlabels p).toNat + (mdCond rlabels hlabels p).toNat
          + (corCond rlabels hlabels (matchMatrix m rlabels hlabels) p).toNat
          + (confCond rlabels hlabels (matchMatrix m rlabels hlabels) p).toNat = 1) := by
  refine ⟨?_, ?_, ?_, ?_, ?_⟩
  · simp only [labelMatcherCall_eq]
    exact ⟨trivial, trivial⟩
  · simp only [labelMatcherCall_eq]
    exact ⟨trivial, trivial⟩
  · simp only [labelMatcherCall_eq]
    exact ⟨trivial, trivial⟩
  · simp only [labelMatcherCall_eq]
    exact ⟨trivial, trivial⟩
  · intro p
    by_cases h1 : rlabels.length ≤ p.1
    · have h1' : ¬ p.1 < rlabels.length := Nat.not_lt.mpr h1
      simp [faCond, mdCond, corCond, confCond, h1, h1']
    · have h1' : p.1 < rlabels.length := Nat.not_le.mp h1
      by_cases h2 : hlabels.length ≤ p.2
      · have h2' : ¬ p.2 < hlabels.length := Nat.not_lt.mpr h2
        simp [faCond, mdCond, corCond, confCond, h1, h1', h2, h2']
      · have h2' : p.2 < hlabels.length := Nat.not_le.mp h2
        by_cases h3 : matchMatrix m rlabels hlabels p.1 p.2
        · simp [faCond, mdCond, corCond, confCond, h1, h1', h2, h2', h3]
        · simp [faCond, mdCond, corCond, confCond, h1, h1', h2, h2', h3]

/-- The number of really-matched pairs under a one-to-one pairing `f` of the
`n` padded indices: pairs `(r, f r)` with `r < NR`, `f r < NH` whose labels
match under the predicate. -/
def realMatchCount {α : Type} [Inhabited α] (m : α → α → Bool) (rl hl : List α)
    (n : Nat) (f : Fin n → Fin n) : Nat :=
  ((List.finRange n).filter fun r =>
    decide (r.val < rl.length) && decide ((f r).val < hl.length)
      && m (rl.getD r.val default) (hl.getD (f r).val default)).length

lemma realMatchCount_eq_perm {α : Type} [Inhabited α] (m : α → α → Bool)
    (rl hl : List α) (n : Nat) (f : Fin n → Fin n) :
    realMatchCount m rl hl n f = permMatchCount n (matchMatrix m rl hl) f := by
  unfold realMatchCount permMatchCount
  congr 1
  congr 1
  funext r
  by_cases h1 : r.val < rl.length
  · by_cases h2 : (f r).val < hl.length
    · have e1 : rl.getD r.val default = rl.get ⟨r.val, h1⟩ := by
        rw [List.getD_eq_getElem rl default h1, List.get_eq_getElem]
      have e2 : hl.getD (f r).val default = hl.get ⟨(f r).val, h2⟩ := by
        rw [List.getD_eq_getElem hl default h2, List.get_eq_getElem]
      simp [matchMatrix, h1, h2, e1, e2]
    · simp [matchMatrix, h1, h2]
  · simp [matchMatrix, h1]

instance (n : Nat) (M : Nat → Nat → Bool) (σ : Equiv.Perm (Fin n)) :
    Decidable (IsOptimalAssignment n M σ) := by
  unfold IsOptimalAssignment
  infer_instance

/-- C1: when the solver returns an optimal assignment (the Munkres
guarantee), the correct count reported by `LabelMatcher.__call__` equals the
maximum, over all one-to-one pairings `f` of the `N = max(NR, NH)` padded row
indices to the `N` padded column indices, of the number of pairs `(r, f r)`
with `r < NR`, `f r < NH` and matching labels. -/
theorem call_correct_optimal {α : Type} [Inhabited α] (m : α → α → Bool)
    (solve : Solver) (rlabels hlabels : List α)
    (hopt : IsOptimalAssignment (max rlabels.length hlabels.length)
      (matchMatrix m rlabels hlabels)
      (solve (max rlabels.length hlabels.length) (matchMatrix m rlabels hlabels))) :
    (labelMatcherCall m solve rlabels hlabels).1.correct
      = (Finset.univ.filter
          (fun f : Fin (max rlabels.length hlabels.length) →
              Fin (max rlabels.length hlabels.length) => Function.Bijective f)).sup
          (realMatchCount m rlabels hlabels (max rlabels.length hlabels.length)) := by
  simp only [labelMatcherCall_eq]
  rw [corCount_eq m solve rlabels hlabels]
  apply le_antisymm
  · have hmem : ⇑(solve (max rlabels.length hlabels.length) (matchMatrix m rlabels hlabels))
        ∈ Finset.univ.filter
          (fun f : Fin (max rlabels.length hlabels.length) →
              Fin (max rlabels.length hlabels.length) => Function.Bijective f) := by
      rw [Finset.mem_filter]
      exact ⟨Finset.mem_univ _,
        (solve (max rlabels.length hlabels.length) (matchMatrix m rlabels hlabels)).bijective⟩
    rw [← realMatchCount_eq_perm]
    exact Finset.le_sup hmem
  · apply Finset.sup_le
    intro f hf
    rw [realMatchCount_eq_perm]
    exact hopt f (Finset.mem_filter.mp hf).2

/-- Witness for C1: reference `["A"]`, hypothesis `["A", "B"]`, identity
solver (which is optimal there); the correct count is the brute-force
maximum over all bijective pairings of the two padded indices. -/
theorem call_correct_optimal_witness :
    IsOptimalAssignment
        (max (["A"] : List String).length (["A", "B"] : List String).length)
        (matchMatrix LabelMatcher.matchLabel ["A"] ["A", "B"])
        (trivialSolver (max (["A"] : List String).length (["A", "B"] : List String).length)
          (matchMatrix LabelMatcher.matchLabel ["A"] ["A", "B"]))
    ∧ (labelMatcherCall LabelMatcher.matchLabel trivialSolver
          (["A"] : List String) ["A", "B"]).1.correct
      = (Finset.univ.filter
          (fun f : Fin (max (["A"] : List String).length (["A", "B"] : List String).length) →
              Fin (max (["A"] : List String).length (["A", "B"] : List String).length) =>
            Function.Bijective f)).sup
          (realMatchCount LabelMatcher.matchLabel ["A"] ["A", "B"]
            (max (["A"] : List String).length (["A", "B"] : List String).length)) :=
  ⟨by decide,
   call_correct_optimal LabelMatcher.matchLabel trivialSolver ["A"] ["A", "B"] (by decide)⟩

lemma counts_eq_of_fields {a b : Counts} (h1 : a.correct = b.correct)
    (h2 : a.confusion = b.confusion) (h3 : a.missed = b.missed)
    (h4 : a.falseAlarm = b.falseAlarm) (h5 : a.total = b.total) : a = b := by
  cases a
  cases b
  simp_all

/-- C7: the counts returned by `LabelMatcher.__call__` are deterministic:
two invocations on the same reference and hypothesis label sequences return
equal counts, whichever optimal assignments their solver instances pick. -/
theorem call_counts_deterministic {α : Type} [Inhabited α] (m : α → α → Bool)
    (solve1 solve2 : Solver) (rlabels hlabels : List α)
    (h1 : IsOptimalAssignment (max rlabels.length hlabels.length)
      (matchMatrix m rlabels hlabels)
      (solve1 (max rlabels.length hlabels.length) (matchMatrix m rlabels hlabels)))
    (h2 : IsOptimalAssignment (max rlabels.length hlabels.length)
      (matchMatrix m rlabels hlabels)
      (solve2 (max rlabels.length hlabels.length) (matchMatrix m rlabels hlabels))) :
    (labelMatcherCall m solve1 rlabels hlabels).1
      = (labelMatcherCall m solve2 rlabels hlabels).1 := by
  have hcor : ((assignmentPairs m solve1 rlabels hlabels).filter
        (corCond rlabels hlabels (matchMatrix m rlabels hlabels))).length
      = ((assignmentPairs m solve2 rlabels hlabels).filter
        (corCond rlabels hlabels (matchMatrix m rlabels hlabels))).length := by
    rw [corCount_eq m solve1 rlabels hlabels, corCount_eq m solve2 rlabels hlabels]
    exact le_antisymm
      (h2 _ (solve1 (max rlabels.length hlabels.length)
        (matchMatrix m rlabels hlabels)).bijective)
      (h1 _ (solve2 (max rlabels.length hlabels.length)
        (matchMatrix m rlabels hlabels)).bijective)
  have s1 := four_filter_length rlabels hlabels (matchMatrix m rlabels hlabels)
    (assignmentPairs m solve1 rlabels hlabels)
  have s2 := four_filter_length rlabels hlabels (matchMatrix m rlabels hlabels)
    (assignmentPairs m solve2 rlabels hlabels)
  have l1 := assignmentPairs_length m solve1 rlabels hlabels
  have l2 := assignmentPairs_length m solve2 rlabels hlabels
  have md1 := mdCount_eq m solve1 rlabels hlabels
  have md2 := mdCount_eq m solve2 rlabels hlabels
  have fa1 := faCount_eq m solve1 rlabels hlabels
  have fa2 := faCount_eq m solve2 rlabels hlabels
  apply counts_eq_of_fields
  · simp only [labelMatcherCall_eq]
    exact hcor
  · simp only [labelMatcherCall_eq]
    omega
  · simp only [labelMatcherCall_eq]
    omega
  · simp only [labelMatcherCall_eq]
    omega
  · simp only [labelMatcherCall_eq]

/-- Witness for C7: the two invocations on reference `["A"]` and hypothesis
`["A", "B"]` with optimal (identity) solvers return equal counts. -/
theorem call_counts_deterministic_witness :
    IsOptimalAssignment
        (max (["A"] : List String).length (["A", "B"] : List String).length)
        (matchMatrix LabelMatcher.matchLabel ["A"] ["A", "B"])
        (trivialSolver (max (["A"] : List String).length (["A", "B"] : List String).length)
          (matchMatrix LabelMatcher.matchLabel ["A"] ["A", "B"]))
    ∧ (labelMatcherCall LabelMatcher.matchLabel trivialSolver
          (["A"] : List String) ["A", "B"]).1
      = (labelMatcherCall LabelMatcher.matchLabel trivialSolver
          (["A"] : List String) ["A", "B"]).1 :=
  ⟨by decide,
   call_counts_deterministic LabelMatcher.matchLabel trivialSolver trivialSolver
     ["A"] ["A", "B"] (by decide) (by decide)⟩

/-- C4: `LabelMatcherWithUnknownSupport.match` returns `True` whenever both
labels are `Unknown` placeholder instances, whatever internal data the two
instances carry, and otherwise returns exactly the result of standard value
equality (the base `LabelMatcher.match`). -/
theorem unknown_match_spec (rlabel hlabel : PyLabel) :
    (rlabel.isUnknown = true → hlabel.isUnknown = true →
      UnknownSupportMixin.matchLabel rlabel hlabel = true)
    ∧ (¬(rlabel.isUnknown = true ∧ hlabel.isUnknown = true) →
      UnknownSupportMixin.matchLabel rlabel hlabel
        = LabelMatcher.matchLabel rlabel hlabel) := by
  constructor
  · intro hr hh
    simp [UnknownSupportMixin.matchLabel, hr, hh]
  · intro hne
    have hb : (rlabel.isUnknown && hlabel.isUnknown) = false := by
      cases hu : rlabel.isUnknown
      · simp
      · cases hv : hlabel.isUnknown
        · simp
        · exact absurd ⟨hu, hv⟩ hne
    simp [UnknownSupportMixin.matchLabel, LabelMatcher.matchLabel, hb]

/-- Witness for C4: two distinct `Unknown` instances match, and an `Unknown`
against a concrete label falls back to value equality. -/
theorem unknown_match_spec_witness :
    UnknownSupportMixin.matchLabel (PyLabel.unknown 0) (PyLabel.unknown 1) = true
    ∧ UnknownSupportMixin.matchLabel (PyLabel.unknown 0) (PyLabel.named "A")
      = LabelMatcher.matchLabel (PyLabel.unknown 0) (PyLabel.named "A") :=
  ⟨(unknown_match_spec (PyLabel.unknown 0) (PyLabel.unknown 1)).1 rfl rfl,
   (unknown_match_spec (PyLabel.unknown 0) (PyLabel.named "A")).2 (by decide)⟩

/-- C5: the base `LabelMatcher.match` returns `True` exactly when the
reference label and the hypothesis label are equal under standard value
equality. -/
theorem base_match_iff {α : Type} [DecidableEq α] (rlabel hlabel : α) :
    LabelMatcher.matchLabel rlabel hlabel = true ↔ rlabel = hlabel := by
  simp [LabelMatcher.matchLabel]
